import Mathlib

/-!
Shallow embedding of the MOD-FONT glyph-editor core (shape data model,
hit-testing, transforms, grid snapping, history, pending-update store)
together with proofs settling the specification claims.

Numbers (JS `number`) are modelled as `ℚ`; the only transcendental
operations the source uses (`Math.cos`, `Math.sin`, `Math.sqrt`) occur in
branches of `isPointInShape` and are abstracted as an interpretation
record `JsMath`, so every definition stays executable.
-/

/-- Shape variants, from `src/types.ts` (`enum ShapeType`). -/
inductive ShapeType where
  | square
  | circle
  | triangle
  | quarterCircle
deriving DecidableEq, Repr

/-- The string value of each `ShapeType` enum member, exactly as declared in
`src/types.ts`: `SQUARE = 'square'`, `CIRCLE = 'circle'`, `TRIANGLE = 'triangle'`,
`QUARTER_CIRCLE = 'quarter-circle'`. -/
def ShapeType.str : ShapeType → String
  | .square => "square"
  | .circle => "circle"
  | .triangle => "triangle"
  | .quarterCircle => "quarter-circle"

/-- Arc corners, from `src/types.ts` (`enum ArcCorner`). -/
inductive ArcCorner where
  | tl
  | tr
  | bl
  | br
deriving DecidableEq, Repr

/-- The string value of each `ArcCorner` enum member:
`TL = 'tl'`, `TR = 'tr'`, `BL = 'bl'`, `BR = 'br'`. -/
def ArcCorner.str : ArcCorner → String
  | .tl => "tl"
  | .tr => "tr"
  | .bl => "bl"
  | .br => "br"

/-- A drawn primitive, from the `Shape` interface in `src/types.ts`.
`id` is a JS number (`Date.now() + Math.random()` can be fractional),
hence `ℚ`. -/
structure Shape where
  id : ℚ
  type : ShapeType
  x : ℚ
  y : ℚ
  width : ℚ
  height : ℚ
  rotation : ℚ
  corner : Option ArcCorner
deriving DecidableEq, Repr

/-- A `Partial<Shape>` field update as used by `updateShape`: a field is
`some v` exactly when the corresponding key is present in the JS object. -/
structure ShapePatch where
  x : Option ℚ := none
  y : Option ℚ := none
  width : Option ℚ := none
  height : Option ℚ := none
  rotation : Option ℚ := none
  corner : Option (Option ArcCorner) := none
deriving DecidableEq, Repr

/-- The empty update object `{}`. -/
def ShapePatch.empty : ShapePatch := {}

/-- JS object spread `{ ...shape, ...update }`: keys present in the update
override the shape's fields. -/
def applyPatch (s : Shape) (p : ShapePatch) : Shape :=
  { s with
    x := p.x.getD s.x
    y := p.y.getD s.y
    width := p.width.getD s.width
    height := p.height.getD s.height
    rotation := p.rotation.getD s.rotation
    corner := p.corner.getD s.corner }

/-- JS object spread `{ ...existing, ...updates }` on two partial updates:
keys of `q` override keys of `p`. -/
def mergePatch (p q : ShapePatch) : ShapePatch :=
  { x := q.x.orElse fun _ => p.x
    y := q.y.orElse fun _ => p.y
    width := q.width.orElse fun _ => p.width
    height := q.height.orElse fun _ => p.height
    rotation := q.rotation.orElse fun _ => p.rotation
    corner := q.corner.orElse fun _ => p.corner }

/-- Interpretation of the real-valued library functions used by the
triangle and quarter-circle branches of `isPointInShape`
(`src/utils/performanceHelpers.ts`).  `cosDeg d` stands for
`Math.cos(d * Math.PI / 180)`, `sinDeg` likewise, `sqrt` for `Math.sqrt`.
The branches using them are unreachable for every actual `ShapeType`
value (see `isPointInShape_interp_irrelevant`), so all results below hold
for every interpretation. -/
structure JsMath where
  cosDeg : ℚ → ℚ
  sinDeg : ℚ → ℚ
  sqrt : ℚ → ℚ

/-- A fixed interpretation, used to state closed evaluations; by
`isPointInShape_interp_irrelevant` the choice does not matter. -/
def jsMathAny : JsMath := ⟨fun _ => 0, fun _ => 0, fun _ => 0⟩

/-- `clamp` from `src/utils/performanceHelpers.ts`:
`Math.max(min, Math.min(max, value))`. -/
def clamp (value lo hi : ℚ) : ℚ :=
  max lo (min hi value)

/-- `CELL_SIZE` from `src/constants/shapes.ts` (32 pixels per grid cell). -/
def CELL_SIZE : ℚ := 32

/-- JS `Math.round`: round half toward positive infinity, i.e.
`⌊x + 1/2⌋`. -/
def jsRound (q : ℚ) : ℤ := ⌊q + 1 / 2⌋

/-- `snapToGrid` from `src/utils/svgHelpers.ts`:
`Math.round(value / CELL_SIZE) * CELL_SIZE`. -/
def snapToGrid (value : ℚ) : ℚ :=
  (jsRound (value / CELL_SIZE) : ℚ) * CELL_SIZE

/-- JS truncation toward zero, the rounding used by the `%` operator. -/
def jsTrunc (q : ℚ) : ℤ :=
  if 0 ≤ q then ⌊q⌋ else ⌈q⌉

/-- The JS remainder operator `a % b` (truncated division, sign of the
dividend); only ever used here with `b = 360`. -/
def jsMod (a b : ℚ) : ℚ :=
  a - b * (jsTrunc (a / b) : ℚ)

/-- `Math.min(...list)` over a non-empty argument list (the empty case,
which JS maps to `Infinity`, is given an arbitrary value; all uses below
are on non-empty lists). -/
def jsMinList : List ℚ → ℚ
  | [] => 0
  | x :: xs => xs.foldl min x

/-- `Math.max(...list)` over a non-empty argument list. -/
def jsMaxList : List ℚ → ℚ
  | [] => 0
  | x :: xs => xs.foldl max x

/-- `isPointInShape` from `src/utils/performanceHelpers.ts`, translated
branch for branch.  Note the source compares `shape.type` — whose runtime
value is a lowercase `ShapeType` enum value such as `'circle'` — against
the uppercase literals `'SQUARE'`, `'CIRCLE'`, `'TRIANGLE'`,
`'QUARTER_CIRCLE'`; the `!shape.type` test is the JS falsiness check
(empty string), kept here as equality with `""`.  The quarter-circle
branch compares `Math.sqrt(...)` with 1 via `m.sqrt`. -/
def isPointInShape (m : JsMath) (x y : ℚ) (s : Shape) : Bool :=
  if x < s.x ∨ x > s.x + s.width ∨ y < s.y ∨ y > s.y + s.height then
    false
  else if s.type.str = "" ∨ s.type.str = "SQUARE" then
    true
  else if s.type.str = "CIRCLE" then
    let centerX := s.x + s.width / 2
    let centerY := s.y + s.height / 2
    let rx := s.width / 2
    let ry := s.height / 2
    let normalizedX := (x - centerX) / rx
    let normalizedY := (y - centerY) / ry
    decide (normalizedX * normalizedX + normalizedY * normalizedY ≤ 1)
  else if s.type.str = "TRIANGLE" then
    let rotation := s.rotation
    let centerX := s.x + s.width / 2
    let centerY := s.y + s.height / 2
    let c := m.cosDeg (-rotation)
    let sn := m.sinDeg (-rotation)
    let dx := x - centerX
    let dy := y - centerY
    let rotatedX := centerX + (dx * c - dy * sn)
    let rotatedY := centerY + (dx * sn + dy * c)
    let x1 := s.x
    let y1 := s.y
    let x2 := s.x + s.width
    let y2 := s.y + s.height
    let x3 := s.x
    let y3 := s.y + s.height
    let denominator := (y2 - y3) * (x1 - x3) + (x3 - x2) * (y1 - y3)
    let a := ((y2 - y3) * (rotatedX - x3) + (x3 - x2) * (rotatedY - y3)) / denominator
    let b := ((y3 - y1) * (rotatedX - x3) + (x1 - x3) * (rotatedY - y3)) / denominator
    let cc := 1 - a - b
    decide (0 ≤ a ∧ a ≤ 1 ∧ 0 ≤ b ∧ b ≤ 1 ∧ 0 ≤ cc ∧ cc ≤ 1)
  else if s.type.str = "QUARTER_CIRCLE" then
    let corner := (s.corner.getD ArcCorner.tl).str
    let relX := x - s.x
    let relY := y - s.y
    let cx : ℚ :=
      if corner = "tl" ∨ corner = "TL" then 0
      else if corner = "tr" ∨ corner = "TR" then s.width
      else if corner = "bl" ∨ corner = "BL" then 0
      else if corner = "br" ∨ corner = "BR" then s.width
      else 0
    let cy : ℚ :=
      if corner = "tl" ∨ corner = "TL" then 0
      else if corner = "tr" ∨ corner = "TR" then 0
      else if corner = "bl" ∨ corner = "BL" then s.height
      else if corner = "br" ∨ corner = "BR" then s.height
      else 0
    let distX := relX - cx
    let distY := relY - cy
    let normalizedDist := m.sqrt ((distX / s.width) ^ 2 + (distY / s.height) ^ 2)
    if normalizedDist > 1 then
      false
    else if corner = "tl" ∨ corner = "TL" then
      decide (relX ≥ 0 ∧ relY ≥ 0)
    else if corner = "tr" ∨ corner = "TR" then
      decide (relX ≤ s.width ∧ relY ≥ 0)
    else if corner = "bl" ∨ corner = "BL" then
      decide (relX ≥ 0 ∧ relY ≤ s.height)
    else if corner = "br" ∨ corner = "BR" then
      decide (relX ≤ s.width ∧ relY ≤ s.height)
    else
      true
  else
    true

/-- The normalized ellipse test of the `'CIRCLE'` branch (and of the
specification): `((x-cx)/rx)² + ((y-cy)/ry)² ≤ 1` with centre and radii
from the bounding box. -/
def circleEllipseTest (x y : ℚ) (s : Shape) : Bool :=
  let centerX := s.x + s.width / 2
  let centerY := s.y + s.height / 2
  let rx := s.width / 2
  let ry := s.height / 2
  decide (((x - centerX) / rx) * ((x - centerX) / rx)
    + ((y - centerY) / ry) * ((y - centerY) / ry) ≤ 1)

/-- The horizontal corner map of `flipHorizontal`
(`src/hooks/useShapeTransform.ts`): TL↔TR, BL↔BR. -/
def flipHCorner : ArcCorner → ArcCorner
  | .tl => .tr
  | .tr => .tl
  | .bl => .br
  | .br => .bl

/-- The vertical corner map of `flipVertical`: TL↔BL, TR↔BR. -/
def flipVCorner : ArcCorner → ArcCorner
  | .tl => .bl
  | .tr => .br
  | .bl => .tl
  | .br => .tr

/-- The corner cycle of `rotate90`: TL→TR→BR→BL→TL. -/
def rotateCorner : ArcCorner → ArcCorner
  | .tl => .tr
  | .tr => .br
  | .br => .bl
  | .bl => .tl

/-- The `updates` object built by `flipHorizontal`
(`src/hooks/useShapeTransform.ts`, lines 9-41): triangles get
`rotation = (360 - rotation) % 360`, quarter circles get the flipped
corner (`shape.corner || ArcCorner.TL` defaults a null corner to TL),
squares and circles are unchanged. -/
def flipHorizontalUpdates (s : Shape) : ShapePatch :=
  if s.type = ShapeType.triangle then
    { rotation := some (jsMod (360 - s.rotation) 360) }
  else if s.type = ShapeType.quarterCircle then
    { corner := some (some (flipHCorner (s.corner.getD ArcCorner.tl))) }
  else
    {}

/-- The `updates` object built by `flipVertical` (lines 43-80): triangle
rotation maps 0→180, 90→270, 180→0 and anything else→90 (the source's
nested conditional), quarter circles get the vertically flipped corner. -/
def flipVerticalUpdates (s : Shape) : ShapePatch :=
  if s.type = ShapeType.triangle then
    { rotation := some (if s.rotation = 0 then 180
        else if s.rotation = 90 then 270
        else if s.rotation = 180 then 0
        else 90) }
  else if s.type = ShapeType.quarterCircle then
    { corner := some (some (flipVCorner (s.corner.getD ArcCorner.tl))) }
  else
    {}

/-- The update sent by `rotate90` (lines 82-104): triangles get
`rotation = (rotation + 90) % 360`, quarter circles the cycled corner;
for squares and circles `rotate90` sends no update at all, modelled as
the empty patch. -/
def rotate90Updates (s : Shape) : ShapePatch :=
  if s.type = ShapeType.triangle then
    { rotation := some (jsMod (s.rotation + 90) 360) }
  else if s.type = ShapeType.quarterCircle then
    { corner := some (some (rotateCorner (s.corner.getD ArcCorner.tl))) }
  else
    {}

/-- Net effect of `flipHorizontal` on a shape once the store merges the
update (`{ ...shape, ...update }`). -/
def flipHorizontal (s : Shape) : Shape := applyPatch s (flipHorizontalUpdates s)

/-- Net effect of `flipVertical` on a shape once the store merges the update. -/
def flipVertical (s : Shape) : Shape := applyPatch s (flipVerticalUpdates s)

/-- Net effect of `rotate90` on a shape once the store merges the update. -/
def rotate90 (s : Shape) : Shape := applyPatch s (rotate90Updates s)

/-- Alignment kinds, from `src/types.ts` (`enum AlignmentType`). -/
inductive AlignmentType where
  | left
  | right
  | top
  | bottom
  | centerH
  | centerV
deriving DecidableEq, Repr

/-- Pure result of `alignShapes(shapes, alignment)`
(`src/hooks/useShapeTransform.ts`, lines 138-232) on the list of selected
shapes: an empty selection is untouched; a single shape aligns to the
canvas edges; two or more shapes align relative to each other, each
shape receiving the per-alignment `updateShape` patch computed from the
initial list. -/
def alignShapes (canvasSize : ℚ) (shapes : List Shape) (alignment : AlignmentType) :
    List Shape :=
  if shapes.length = 0 then shapes
  else if shapes.length = 1 then
    shapes.map fun shape =>
      match alignment with
      | .left => { shape with x := 0 }
      | .right => { shape with x := canvasSize - shape.width }
      | .centerH => { shape with x := (canvasSize - shape.width) / 2 }
      | .top => { shape with y := 0 }
      | .bottom => { shape with y := canvasSize - shape.height }
      | .centerV => { shape with y := (canvasSize - shape.height) / 2 }
  else
    match alignment with
    | .left =>
        let targetValue := jsMinList (shapes.map fun s => s.x)
        shapes.map fun shape => { shape with x := targetValue }
    | .right =>
        let rightmostEdge := jsMaxList (shapes.map fun s => s.x + s.width)
        shapes.map fun shape => { shape with x := rightmostEdge - shape.width }
    | .centerH =>
        let centerXs := shapes.map fun s => s.x + s.width / 2
        let avgCenterX := (centerXs.foldl (· + ·) 0) / (centerXs.length : ℚ)
        shapes.map fun shape => { shape with x := avgCenterX - shape.width / 2 }
    | .top =>
        let targetValue := jsMinList (shapes.map fun s => s.y)
        shapes.map fun shape => { shape with y := targetValue }
    | .bottom =>
        let bottommostEdge := jsMaxList (shapes.map fun s => s.y + s.height)
        shapes.map fun shape => { shape with y := bottommostEdge - shape.height }
    | .centerV =>
        let centerYs := shapes.map fun s => s.y + s.height / 2
        let avgCenterY := (centerYs.foldl (· + ·) 0) / (centerYs.length : ℚ)
        shapes.map fun shape => { shape with y := avgCenterY - shape.height / 2 }

/-- `isShapeInBounds` from `src/utils/shapeHelpers.ts`: the canvas-bounds
containment invariant. -/
def isShapeInBounds (s : Shape) (canvasSize : ℚ) : Bool :=
  decide (s.x ≥ 0 ∧ s.y ≥ 0 ∧ s.x + s.width ≤ canvasSize ∧
    s.y + s.height ≤ canvasSize)

/-- `normalizeShapeToCanvas` from `src/utils/shapeHelpers.ts`: re-snap a
shape and clamp it into a glyph canvas of the given grid size (used when
pasting across glyphs). -/
def normalizeShapeToCanvas (s : Shape) (gridSize : ℤ) : Shape :=
  let canvasSize := (gridSize : ℚ) * CELL_SIZE
  let snapDimension := fun (dimension : ℚ) => clamp (snapToGrid dimension) CELL_SIZE canvasSize
  let width := min (snapDimension s.width) canvasSize
  let height := min (snapDimension s.height) canvasSize
  let maxX := max 0 (canvasSize - width)
  let maxY := max 0 (canvasSize - height)
  let x := clamp (snapToGrid s.x) 0 maxX
  let y := clamp (snapToGrid s.y) 0 maxY
  { s with x := x, y := y, width := width, height := height }

/-- The duplicated shape built by `duplicateShape` in the font-editor
store (`useFontEditor`, lines 230-267): a copy offset by one cell in both
axes with a fresh id (`Date.now() + Math.random()`, passed in here since
it is an external clock/randomness source).  No clamping is applied. -/
def duplicatedShape (newId : ℚ) (s : Shape) : Shape :=
  { s with id := newId, x := s.x + CELL_SIZE, y := s.y + CELL_SIZE }

/-- A 2D point (`SVGPoint` in `src/types.ts`). -/
structure Point where
  x : ℚ
  y : ℚ
deriving DecidableEq, Repr

/-- The per-shape update of the `dragging-shapes` branch of
`handleMouseMove` (`src/components/EditorCanvas.tsx`, lines 361-387):
`newX = clamp(snapToGrid(startPos.x + dx), 0, canvasSize - shape.width)`
and likewise for y, sent as a pending `{x, y}` update. -/
def dragUpdate (canvasSize : ℚ) (startPos : Point) (dx dy : ℚ) (s : Shape) :
    ShapePatch :=
  { x := some (clamp (snapToGrid (startPos.x + dx)) 0 (canvasSize - s.width))
    y := some (clamp (snapToGrid (startPos.y + dy)) 0 (canvasSize - s.height)) }

/-- Resize handles of the four corners. -/
inductive ResizeHandle where
  | nw
  | ne
  | sw
  | se
deriving DecidableEq, Repr

/-- The `updates` object of the `resizing` branch of `handleMouseMove`
(`src/components/EditorCanvas.tsx`, lines 388-461), computed from the
pre-resize snapshot `start` (never the live shape) and the pointer delta. -/
def resizeUpdates (canvasSize : ℚ) (handle : ResizeHandle) (start : Shape)
    (dx dy : ℚ) : ShapePatch :=
  match handle with
  | .nw =>
      let newX := clamp (snapToGrid (start.x + dx)) 0 (start.x + start.width - CELL_SIZE)
      let newY := clamp (snapToGrid (start.y + dy)) 0 (start.y + start.height - CELL_SIZE)
      { x := some newX
        y := some newY
        width := some (max CELL_SIZE (start.x + start.width - newX))
        height := some (max CELL_SIZE (start.y + start.height - newY)) }
  | .ne =>
      let newY := clamp (snapToGrid (start.y + dy)) 0 (start.y + start.height - CELL_SIZE)
      let newWidth := max CELL_SIZE (snapToGrid (start.width + dx))
      { y := some newY
        width := some (clamp newWidth CELL_SIZE (canvasSize - start.x))
        height := some (max CELL_SIZE (start.y + start.height - newY)) }
  | .sw =>
      let newX := clamp (snapToGrid (start.x + dx)) 0 (start.x + start.width - CELL_SIZE)
      let newHeight := max CELL_SIZE (snapToGrid (start.height + dy))
      { x := some newX
        width := some (max CELL_SIZE (start.x + start.width - newX))
        height := some (clamp newHeight CELL_SIZE (canvasSize - start.y)) }
  | .se =>
      let newWidth := max CELL_SIZE (snapToGrid (start.width + dx))
      let newHeight := max CELL_SIZE (snapToGrid (start.height + dy))
      { width := some (clamp newWidth CELL_SIZE (canvasSize - start.x))
        height := some (clamp newHeight CELL_SIZE (canvasSize - start.y)) }

/-- The snapped preview box recomputed by the `drawing` branch of
`handleMouseMove` (lines 336-347) from the draw start and the current
pointer position. -/
def previewBoxOf (start point : Point) : Shape → Shape := fun s =>
  { s with
    x := snapToGrid (min start.x point.x)
    y := snapToGrid (min start.y point.y)
    width := snapToGrid (|point.x - start.x|)
    height := snapToGrid (|point.y - start.y|) }

/-- Association-list lookup, modelling `Map.get` / record indexing. -/
def assocFind {α β : Type} [DecidableEq α] : List (α × β) → α → Option β
  | [], _ => none
  | (k, v) :: rest, key => if k = key then some v else assocFind rest key

/-- `Map.set` on an association list: replace in place if the key exists
(JS `Map` keeps insertion order), append otherwise. -/
def assocSet {α β : Type} [DecidableEq α] : List (α × β) → α → β → List (α × β)
  | [], key, v => [(key, v)]
  | (k, w) :: rest, key, v =>
      if k = key then (k, v) :: rest else (k, w) :: assocSet rest key v

/-- The pending-update map for one glyph: shape id → partial update
(`ShapeUpdateMap` in `useFontEditor`). -/
abbrev PendingMap := List (ℚ × ShapePatch)

/-- `getGlyphSnapshot` applied to a shape list: each shape merged with its
pending update if one exists (`useFontEditor`, lines 93-103). -/
def resolveShapes (pending : PendingMap) (shapes : List Shape) : List Shape :=
  shapes.map fun s =>
    match assocFind pending s.id with
    | some p => applyPatch s p
    | none => s

/-- The per-glyph slice of the `useFontEditor` store state: the glyph's
authoritative shape array, its history stacks (`History` is keyed per
glyph in the source; this is the entry of the current glyph), and the
glyph's pending in-flight updates. -/
structure GlyphEditor where
  shapes : List Shape
  past : List (List Shape)
  future : List (List Shape)
  pending : PendingMap
deriving DecidableEq, Repr

/-- `getGlyphSnapshot` of the current glyph: the shape array with pending
updates applied. -/
def glyphSnapshot (e : GlyphEditor) : List Shape :=
  resolveShapes e.pending e.shapes

/-- `saveToHistory` (`useFontEditor`, lines 127-147): push the
pending-resolved snapshot onto `past`, trim to the last 50 entries
(`newPast.shift()` when the length exceeds 50), clear `future`. -/
def saveToHistory (e : GlyphEditor) : GlyphEditor :=
  let snapshot := glyphSnapshot e
  let newPast := e.past ++ [snapshot]
  { e with
    past := if newPast.length > 50 then newPast.tail else newPast
    future := [] }

/-- `updateShape` (`useFontEditor`, lines 174-195): an empty update object
returns immediately; otherwise the update is merged into the glyph's
pending map (`existing ? { ...existing, ...updates } : { ...updates }`). -/
def updateShapeOp (shapeId : ℚ) (updates : ShapePatch) (e : GlyphEditor) :
    GlyphEditor :=
  if updates = ShapePatch.empty then e
  else
    let merged :=
      match assocFind e.pending shapeId with
      | some existing => mergePatch existing updates
      | none => updates
    { e with pending := assocSet e.pending shapeId merged }

/-- `undo` (`useFontEditor`, lines 295-326): a no-op when `past` is empty;
otherwise cancel and discard the glyph's pending updates, pop the last
`past` entry, push the current snapshot (taken after the pending map was
cleared) onto `future`, and install the popped snapshot as the live shape
array. -/
def undo (e : GlyphEditor) : GlyphEditor :=
  if e.past = [] then e
  else
    let cleared : GlyphEditor := { e with pending := [] }
    let previous := e.past.getLastD []
    let newPast := e.past.dropLast
    let newFuture := glyphSnapshot cleared :: e.future
    { cleared with shapes := previous, past := newPast, future := newFuture }

/-- `redo` (`useFontEditor`, lines 328-359): the mirror of `undo`; note the
source pushes onto `past` without the 50-entry trim here. -/
def redo (e : GlyphEditor) : GlyphEditor :=
  if e.future = [] then e
  else
    let cleared : GlyphEditor := { e with pending := [] }
    let next := e.future.headD []
    let newPast := e.past ++ [glyphSnapshot cleared]
    let newFuture := e.future.tail
    { cleared with shapes := next, past := newPast, future := newFuture }

/-- The committed-mutation pattern shared by the history-bearing store
operations (`deleteShape`, `duplicateShape`, `clearGlyph`, and the draw
commit of `handleMouseUp`): take a history snapshot first, then replace
the authoritative shape array. -/
def commitMutation (f : List Shape → List Shape) (e : GlyphEditor) : GlyphEditor :=
  let e1 := saveToHistory e
  { e1 with shapes := f e1.shapes }

/-- A sequence of committed mutations, applied left to right. -/
def commitMutations (fs : List (List Shape → List Shape)) (e : GlyphEditor) :
    GlyphEditor :=
  fs.foldl (fun acc f => commitMutation f acc) e

/-- One `flipHorizontal(shape)` call as the store sees it
(`useShapeTransform.ts`, lines 9-41): `saveToHistory()` first, then
`updateShape(shape.id, updates)`. -/
def flipHorizontalOp (s : Shape) (e : GlyphEditor) : GlyphEditor :=
  updateShapeOp s.id (flipHorizontalUpdates s) (saveToHistory e)

/-- One `flipVertical(shape)` call as the store sees it. -/
def flipVerticalOp (s : Shape) (e : GlyphEditor) : GlyphEditor :=
  updateShapeOp s.id (flipVerticalUpdates s) (saveToHistory e)

/-- One `rotate90(shape)` call as the store sees it (for squares and
circles the source calls `saveToHistory` but sends no update; the empty
patch makes `updateShapeOp` a no-op, matching that). -/
def rotate90Op (s : Shape) (e : GlyphEditor) : GlyphEditor :=
  updateShapeOp s.id (rotate90Updates s) (saveToHistory e)

/-- `handleFlipHorizontal` (`EditorCanvas.tsx`, lines 193-199): iterate
over the selected shapes (looked up from the render-time shape array,
which does not change during the loop since `setFont` is asynchronous)
and call `flipHorizontal` on each. -/
def handleFlipHorizontal (selected : List Shape) (e : GlyphEditor) : GlyphEditor :=
  selected.foldl (fun acc s => flipHorizontalOp s acc) e

/-- `handleFlipVertical` (`EditorCanvas.tsx`, lines 201-207). -/
def handleFlipVertical (selected : List Shape) (e : GlyphEditor) : GlyphEditor :=
  selected.foldl (fun acc s => flipVerticalOp s acc) e

/-- `handleRotate90` (`EditorCanvas.tsx`, lines 209-215). -/
def handleRotate90 (selected : List Shape) (e : GlyphEditor) : GlyphEditor :=
  selected.foldl (fun acc s => rotate90Op s acc) e

/-- `alignShapes` as a store operation: a single `saveToHistory()` at the
start, then one `updateShape` per shape; the pure per-shape updates are
those of `alignShapes`. -/
def alignShapesOp (canvasSize : ℚ) (shapes : List Shape) (alignment : AlignmentType)
    (e : GlyphEditor) : GlyphEditor :=
  if shapes.length = 0 then e
  else
    let e1 := saveToHistory e
    (alignShapes canvasSize shapes alignment).foldl
      (fun acc s =>
        updateShapeOp s.id
          (match alignment with
            | .left | .right | .centerH => { x := some s.x }
            | .top | .bottom | .centerV => { y := some s.y }) acc) e1

/-- The multi-glyph slice of the editor relevant to glyph switching: the
font's glyphs (key → shape array), the per-glyph pending-update map, the
current glyph key, and the `EditorCanvas` interaction state that the
glyph-switch effect (`EditorCanvas.tsx`, lines 174-190) resets. -/
structure EditorDoc where
  glyphs : List (String × List Shape)
  pending : List (String × PendingMap)
  currentGlyph : String
  selection : List ℚ
  isDragging : Bool
  isResizing : Bool
  isSelecting : Bool
  drawStart : Option Point
  dragStart : Option Point
  shapeStartPositions : List (ℚ × Point)
  resizeStartShape : Option Shape
  resizeHandle : Option ResizeHandle
deriving DecidableEq, Repr

/-- The pending updates recorded for one glyph key. -/
def glyphPending (d : EditorDoc) (key : String) : PendingMap :=
  (assocFind d.pending key).getD []

/-- `applyPendingShapeUpdates` (`useFontEditor`, lines 25-76): merge every
glyph's pending updates into that glyph's authoritative shape array and
clear the pending map (pending entries whose key names no glyph are
dropped, as in the source's `if (!glyph) return`). -/
def applyPendingShapeUpdates (d : EditorDoc) : EditorDoc :=
  { d with
    glyphs := d.glyphs.map fun g => (g.1, resolveShapes (glyphPending d g.1) g.2)
    pending := [] }

/-- The state reset performed by the `EditorCanvas` glyph-switch effect
(lines 174-190): all interaction flags back to idle, selection cleared,
every in-flight gesture record dropped. -/
def glyphSwitchReset (d : EditorDoc) : EditorDoc :=
  { d with
    isDragging := false
    isResizing := false
    isSelecting := false
    selection := []
    dragStart := none
    shapeStartPositions := []
    resizeStartShape := none
    resizeHandle := none
    drawStart := none }

/-- `setCurrentGlyph` (`useFontEditor`, lines 403-410) followed by the
`EditorCanvas` glyph-switch effect that fires when the active glyph
changes: cancel the scheduled frame, apply (flush) all pending shape
updates, install the new current glyph, then reset the interaction
state. -/
def setCurrentGlyph (d : EditorDoc) (glyphKey : String) : EditorDoc :=
  glyphSwitchReset { applyPendingShapeUpdates d with currentGlyph := glyphKey }

/-- A rational is a whole multiple of the 32-unit grid cell. -/
def onGrid (q : ℚ) : Prop := ∃ k : ℤ, q = CELL_SIZE * k

/-- All four geometry fields of a shape lie on the grid. -/
def shapeOnGrid (s : Shape) : Prop :=
  onGrid s.x ∧ onGrid s.y ∧ onGrid s.width ∧ onGrid s.height

/-- A 32×32 circle at the origin, as `createShape(ShapeType.CIRCLE, 0, 0, 32, 32)`
would produce (fresh id, rotation 0, no corner). -/
def circleShape32 : Shape :=
  { id := 1, type := .circle, x := 0, y := 0, width := 32, height := 32,
    rotation := 0, corner := none }

/-- A zero-size square at the origin (degenerate). -/
def degenerateSquare : Shape :=
  { id := 2, type := .square, x := 0, y := 0, width := 0, height := 0,
    rotation := 0, corner := none }

/-- A square with negative width (degenerate). -/
def negativeWidthSquare : Shape :=
  { id := 3, type := .square, x := 0, y := 0, width := -32, height := 32,
    rotation := 0, corner := none }

/-- A 32×32 triangle at the origin with rotation 90. -/
def triangleShape90 : Shape :=
  { id := 4, type := .triangle, x := 0, y := 0, width := 32, height := 32,
    rotation := 90, corner := none }

/-- A 32×32 square at grid cell (0,0). -/
def squareAt0 : Shape :=
  { id := 7, type := .square, x := 0, y := 0, width := 32, height := 32,
    rotation := 0, corner := none }

/-- A 32×32 square at x = 96. -/
def squareAt96 : Shape :=
  { id := 8, type := .square, x := 96, y := 0, width := 32, height := 32,
    rotation := 0, corner := none }

/-- A 32×32 square touching the bottom-right corner of a 512-unit canvas. -/
def edgeSquare : Shape :=
  { id := 5, type := .square, x := 480, y := 480, width := 32, height := 32,
    rotation := 0, corner := none }

/-- A 32×32 square at (64,64), the shape of the drag scenario. -/
def squareAt64 : Shape :=
  { id := 9, type := .square, x := 64, y := 64, width := 32, height := 32,
    rotation := 0, corner := none }

/-- A 96×32 square at (64,64), a wide variant of the drag scenario shape. -/
def wideSquareAt64 : Shape :=
  { id := 10, type := .square, x := 64, y := 64, width := 96, height := 32,
    rotation := 0, corner := none }

/-- An editor state for one glyph holding two squares, with empty history
and no pending updates. -/
def twoSquareEditor : GlyphEditor :=
  { shapes := [squareAt0, squareAt96], past := [], future := [], pending := [] }

/-- A pending update moving a shape to x = 32. -/
def patchX32 : ShapePatch := { x := some 32 }

/-- A document with one glyph `"A"` containing `squareAt0`, an in-flight
pending update moving it to x = 32, and an active drag session. -/
def docMidDrag : EditorDoc :=
  { glyphs := [("A", [squareAt0])]
    pending := [("A", [(squareAt0.id, patchX32)])]
    currentGlyph := "A"
    selection := [squareAt0.id]
    isDragging := true
    isResizing := false
    isSelecting := false
    drawStart := none
    dragStart := some ⟨0, 0⟩
    shapeStartPositions := [(squareAt0.id, ⟨0, 0⟩)]
    resizeStartShape := none
    resizeHandle := none }

/-- The shape array obtained by applying a list of mutations in order. -/
def chainMutations (fs : List (List Shape → List Shape)) (a : List Shape) : List Shape :=
  fs.foldl (fun acc f => f acc) a

/-- The intermediate shape arrays a mutation sequence passes through: the
array as it stands *before* each mutation, in order; these are exactly
the snapshots the mutations push onto `past`. -/
def mutationStates : List (List Shape → List Shape) → List Shape → List (List Shape)
  | [], _ => []
  | f :: rest, a => a :: mutationStates rest (f a)

theorem ShapeType.str_ne_upper (t : ShapeType) :
    t.str ≠ "SQUARE" ∧ t.str ≠ "CIRCLE" ∧ t.str ≠ "TRIANGLE" ∧
      t.str ≠ "QUARTER_CIRCLE" ∧ t.str ≠ "" := by
  cases t <;> simp [ShapeType.str]

/-- The branches of `isPointInShape` that consult the abstract
interpretation are unreachable for every `ShapeType` value, so the result
does not depend on the interpretation. -/
theorem isPointInShape_interp_irrelevant (m₁ m₂ : JsMath) (x y : ℚ) (s : Shape) :
    isPointInShape m₁ x y s = isPointInShape m₂ x y s := by
  cases s with
  | mk id ty sx sy w h r c =>
    cases ty <;> simp [isPointInShape, ShapeType.str]

/-- C1 (status: code_bug). The claim says the circle hit test is the
normalized ellipse test; in the code the guard `shape.type === 'CIRCLE'`
compares the runtime enum value `'circle'` with the enum key name, so the
ellipse branch is unreachable and a circle is hit-tested by its bounding
box alone: the point (1,1) is inside the bounding box of a 32×32 circle
at the origin, `isPointInShape` returns true, yet the ellipse test of the
claim (and of the dead branch) rejects it. -/
theorem isPointInShape_circle_ignores_ellipse :
    isPointInShape jsMathAny 1 1 circleShape32 = true ∧
      circleEllipseTest 1 1 circleShape32 = false := by
  constructor
  · simp [isPointInShape, circleShape32, ShapeType.str]
  · simp [circleEllipseTest, circleShape32]
    norm_num

/-- C7 counterexample. The claim says shapes with non-positive width or
height never match; a zero-size square still matches the query point that
coincides with its collapsed bounding box. -/
theorem degenerate_square_still_hit :
    isPointInShape jsMathAny 0 0 degenerateSquare = true := by
  simp [isPointInShape, degenerateSquare, ShapeType.str]

/-- C7 (status: corrected, amended). Hit-testing a shape with negative
width or negative height always returns false (the bounding-box test can
never pass), for every interpretation of the library math functions;
zero-size shapes, however, can still match (see
`degenerate_square_still_hit`). -/
theorem negative_size_never_hit (m : JsMath) (x y : ℚ) (s : Shape)
    (h : s.width < 0 ∨ s.height < 0) : isPointInShape m x y s = false := by
  unfold isPointInShape
  rw [if_pos]
  rcases h with hw | hh
  · by_cases hx : x < s.x
    · exact Or.inl hx
    · push_neg at hx
      exact Or.inr (Or.inl (by linarith))
  · by_cases hy : y < s.y
    · exact Or.inr (Or.inr (Or.inl hy))
    · push_neg at hy
      exact Or.inr (Or.inr (Or.inr (by linarith)))

/-- Witness for `negative_size_never_hit` at a concrete degenerate shape. -/
theorem negative_size_never_hit_witness :
    (negativeWidthSquare.width < 0 ∨ negativeWidthSquare.height < 0) ∧
      isPointInShape jsMathAny 0 0 negativeWidthSquare = false := by
  refine ⟨Or.inl (by norm_num [negativeWidthSquare]), ?_⟩
  exact negative_size_never_hit jsMathAny 0 0 negativeWidthSquare
    (Or.inl (by norm_num [negativeWidthSquare]))

/-- C4 (status: confirmed). `flipHorizontal` and `flipVertical` leave
`x`, `y`, `width`, `height` (and `id`, `type`) of every shape unchanged;
the only fields they may change are `rotation` — triangles get
`(360 - rotation) % 360` under `flipHorizontal` and the 0↔180 / 90↔270
swap under `flipVertical` — and `corner` — quarter circles get TL↔TR,
BL↔BR under `flipHorizontal` and TL↔BL, TR↔BR under `flipVertical`. -/
theorem flip_preserves_frame (s : Shape) :
    ((flipHorizontal s).x = s.x ∧ (flipHorizontal s).y = s.y ∧
      (flipHorizontal s).width = s.width ∧ (flipHorizontal s).height = s.height ∧
      (flipHorizontal s).id = s.id ∧ (flipHorizontal s).type = s.type) ∧
    ((flipVertical s).x = s.x ∧ (flipVertical s).y = s.y ∧
      (flipVertical s).width = s.width ∧ (flipVertical s).height = s.height ∧
      (flipVertical s).id = s.id ∧ (flipVertical s).type = s.type) ∧
    (s.type = ShapeType.triangle →
      (flipHorizontal s).rotation = jsMod (360 - s.rotation) 360 ∧
      (s.rotation = 0 → (flipVertical s).rotation = 180) ∧
      (s.rotation = 90 → (flipVertical s).rotation = 270) ∧
      (s.rotation = 180 → (flipVertical s).rotation = 0) ∧
      (s.rotation = 270 → (flipVertical s).rotation = 90)) ∧
    (s.type ≠ ShapeType.triangle →
      (flipHorizontal s).rotation = s.rotation ∧
      (flipVertical s).rotation = s.rotation) ∧
    (s.type = ShapeType.quarterCircle →
      (flipHorizontal s).corner = some (flipHCorner (s.corner.getD .tl)) ∧
      (flipVertical s).corner = some (flipVCorner (s.corner.getD .tl))) ∧
    (s.type ≠ ShapeType.quarterCircle →
      (flipHorizontal s).corner = s.corner ∧
      (flipVertical s).corner = s.corner) := by
  cases s with
  | mk id ty x y w h r c =>
    cases ty <;>
      (simp [flipHorizontal, flipVertical, flipHorizontalUpdates,
        flipVerticalUpdates, applyPatch]
       try exact ⟨fun hr hr' => absurd hr hr', fun hr => by simp [hr],
         fun hr => by simp [hr], fun hr => by simp [hr]⟩)

/-- Witness for `flip_preserves_frame` at a concrete rotated triangle. -/
theorem flip_preserves_frame_witness :
    triangleShape90.type = ShapeType.triangle ∧
      (flipHorizontal triangleShape90).x = triangleShape90.x ∧
      (flipHorizontal triangleShape90).rotation = jsMod (360 - 90) 360 ∧
      (flipVertical triangleShape90).rotation = 270 := by
  obtain ⟨hH, hV, hT, hNT, hQ, hNQ⟩ := flip_preserves_frame triangleShape90
  have htyp : triangleShape90.type = ShapeType.triangle := rfl
  have hrot : triangleShape90.rotation = 90 := rfl
  refine ⟨htyp, hH.1, ?_, (hT htyp).2.2.1 hrot⟩
  have := (hT htyp).1
  rw [this, hrot]

/-- C10 counterexample. The claim's concrete scenario says dragging a
shape from (64,64) by (200,0) on a 320-unit canvas clamps x to
`320 - width`; for a 32-unit-wide shape the snapped value
`snapToGrid(264) = 256` is already inside the canvas, so x becomes 256,
not `320 - 32 = 288`. -/
theorem drag_scenario_width32_not_edge :
    (applyPatch squareAt64 (dragUpdate 320 ⟨64, 64⟩ 200 0 squareAt64)).x = 256 ∧
      (256 : ℚ) ≠ 320 - squareAt64.width := by
  constructor
  · simp [applyPatch, dragUpdate, squareAt64, clamp]
    norm_num [snapToGrid, jsRound, CELL_SIZE]
  · norm_num [squareAt64]

/-- C10 (status: corrected, amended). During a dragging-shapes move each
selected shape's new position is
`clamp(snapToGrid(start + delta), 0, canvasSize - size)` per axis, and
the update touches nothing but `x` and `y`; in the (64,64), delta (200,0),
320-canvas scenario the result is `min(256, 320 - width)`: shapes at
least 64 wide (and at most canvas-wide) clamp to `320 - width`, while a
32-wide shape lands at the snapped 256. -/
theorem drag_update_formula (canvasSize : ℚ) (p : Point) (dx dy : ℚ) (s : Shape) :
    ((applyPatch s (dragUpdate canvasSize p dx dy s)).x =
        clamp (snapToGrid (p.x + dx)) 0 (canvasSize - s.width) ∧
      (applyPatch s (dragUpdate canvasSize p dx dy s)).y =
        clamp (snapToGrid (p.y + dy)) 0 (canvasSize - s.height) ∧
      (applyPatch s (dragUpdate canvasSize p dx dy s)).width = s.width ∧
      (applyPatch s (dragUpdate canvasSize p dx dy s)).height = s.height ∧
      (applyPatch s (dragUpdate canvasSize p dx dy s)).id = s.id ∧
      (applyPatch s (dragUpdate canvasSize p dx dy s)).type = s.type ∧
      (applyPatch s (dragUpdate canvasSize p dx dy s)).rotation = s.rotation ∧
      (applyPatch s (dragUpdate canvasSize p dx dy s)).corner = s.corner) ∧
    (64 ≤ s.width → s.width ≤ 320 →
      (applyPatch s (dragUpdate 320 ⟨64, 64⟩ 200 0 s)).x = 320 - s.width) ∧
    (s.width = 32 →
      (applyPatch s (dragUpdate 320 ⟨64, 64⟩ 200 0 s)).x = 256) := by
  refine ⟨⟨rfl, rfl, rfl, rfl, rfl, rfl, rfl, rfl⟩, ?_, ?_⟩
  · intro h64 h320
    have hsnap : snapToGrid (64 + 200) = 256 := by
      norm_num [snapToGrid, jsRound, CELL_SIZE]
    simp only [applyPatch, dragUpdate, Option.getD_some]
    rw [hsnap, clamp, min_eq_left (by linarith), max_eq_right (by linarith)]
  · intro h32
    have hsnap : snapToGrid (64 + 200) = 256 := by
      norm_num [snapToGrid, jsRound, CELL_SIZE]
    simp only [applyPatch, dragUpdate, Option.getD_some]
    rw [hsnap, h32, clamp]
    norm_num

/-- Witness for `drag_update_formula`: the wide 96-unit shape really
clamps to the right edge. -/
theorem drag_update_formula_witness :
    (64 ≤ wideSquareAt64.width ∧ wideSquareAt64.width ≤ 320) ∧
      (applyPatch wideSquareAt64 (dragUpdate 320 ⟨64, 64⟩ 200 0 wideSquareAt64)).x =
        320 - wideSquareAt64.width := by
  refine ⟨⟨by norm_num [wideSquareAt64], by norm_num [wideSquareAt64]⟩, ?_⟩
  exact (drag_update_formula 320 ⟨64, 64⟩ 200 0 wideSquareAt64).2.1
    (by norm_num [wideSquareAt64]) (by norm_num [wideSquareAt64])

/-- C3 counterexample. `duplicateShape` offsets the clone by one cell with
no clamping: duplicating a square that touches the bottom-right corner of
a 512-unit canvas (grid 16) yields a shape violating the canvas-bounds
containment invariant. -/
theorem duplicate_escapes_canvas :
    isShapeInBounds edgeSquare 512 = true ∧
      isShapeInBounds (duplicatedShape 6 edgeSquare) 512 = false := by
  constructor
  · simp [isShapeInBounds, edgeSquare]
    norm_num
  · simp [isShapeInBounds, duplicatedShape, edgeSquare, CELL_SIZE]
    norm_num

theorem clamp_nonneg_lo (v hi : ℚ) : 0 ≤ clamp v 0 hi :=
  le_max_left _ _

theorem clamp_zero_maxzero_add_le (v c w : ℚ) (hwc : w ≤ c) :
    clamp v 0 (max 0 (c - w)) + w ≤ c := by
  have h1 : clamp v 0 (max 0 (c - w)) ≤ max 0 (c - w) :=
    max_le (le_max_left _ _) (min_le_left _ _)
  have h2 : max 0 (c - w) + w = max w c := by
    rw [← max_add_add_right, zero_add, sub_add_cancel]
  have h3 : max w c ≤ c := max_le hwc le_rfl
  linarith [h1, h2.le, h2.ge]

/-- C3 (status: corrected, amended). The canvas-bounds containment
invariant holds for every shape committed through the paste
normalization (`normalizeShapeToCanvas`) and for every drag-flushed
position (whose x and y are clamped) as long as the shape's own size fits
the canvas; `duplicateShape`, however, offsets by one cell without
clamping and can violate it (see `duplicate_escapes_canvas`). -/
theorem commit_containment :
    (∀ (s : Shape) (gridSize : ℤ),
      isShapeInBounds (normalizeShapeToCanvas s gridSize)
        ((gridSize : ℚ) * CELL_SIZE) = true) ∧
    (∀ (canvasSize : ℚ) (p : Point) (dx dy : ℚ) (s : Shape),
      0 ≤ s.width → s.width ≤ canvasSize → 0 ≤ s.height → s.height ≤ canvasSize →
      isShapeInBounds (applyPatch s (dragUpdate canvasSize p dx dy s))
        canvasSize = true) := by
  constructor
  · intro s gridSize
    simp only [isShapeInBounds, normalizeShapeToCanvas, decide_eq_true_eq]
    refine ⟨clamp_nonneg_lo _ _, clamp_nonneg_lo _ _, ?_, ?_⟩
    · exact clamp_zero_maxzero_add_le _ _ _ (min_le_right _ _)
    · exact clamp_zero_maxzero_add_le _ _ _ (min_le_right _ _)
  · intro canvasSize p dx dy s hw0 hwc hh0 hhc
    simp only [isShapeInBounds, applyPatch, dragUpdate, Option.getD_some,
      Option.getD_none, decide_eq_true_eq, clamp]
    refine ⟨le_max_left _ _, le_max_left _ _, ?_, ?_⟩
    · have hle : max 0 (min (canvasSize - s.width) (snapToGrid (p.x + dx))) ≤
          canvasSize - s.width :=
        max_le (by linarith) (min_le_left _ _)
      linarith
    · have hle : max 0 (min (canvasSize - s.height) (snapToGrid (p.y + dy))) ≤
          canvasSize - s.height :=
        max_le (by linarith) (min_le_left _ _)
      linarith

/-- Witness for `commit_containment`: the drag part applied to the
(64,64) square on a 320-unit canvas. -/
theorem commit_containment_witness :
    isShapeInBounds (applyPatch squareAt64 (dragUpdate 320 ⟨64, 64⟩ 200 0 squareAt64))
      320 = true := by
  exact commit_containment.2 320 ⟨64, 64⟩ 200 0 squareAt64
    (by norm_num [squareAt64]) (by norm_num [squareAt64])
    (by norm_num [squareAt64]) (by norm_num [squareAt64])

theorem foldl_min_self (l : List ℚ) (c : ℚ) (h : ∀ q ∈ l, q = c) :
    l.foldl min c = c := by
  induction l with
  | nil => rfl
  | cons x xs ih =>
      have hx : x = c := h x (by simp)
      simp only [List.foldl_cons, hx, min_self]
      exact ih fun q hq => h q (by simp [hq])

theorem foldl_max_self (l : List ℚ) (c : ℚ) (h : ∀ q ∈ l, q = c) :
    l.foldl max c = c := by
  induction l with
  | nil => rfl
  | cons x xs ih =>
      have hx : x = c := h x (by simp)
      simp only [List.foldl_cons, hx, max_self]
      exact ih fun q hq => h q (by simp [hq])

theorem jsMinList_all_eq (l : List ℚ) (c : ℚ) (h : ∀ q ∈ l, q = c)
    (hne : l ≠ []) : jsMinList l = c := by
  cases l with
  | nil => exact absurd rfl hne
  | cons x xs =>
      have hx : x = c := h x (by simp)
      simp only [jsMinList, hx]
      exact foldl_min_self _ _ fun q hq => h q (by simp [hq])

theorem jsMaxList_all_eq (l : List ℚ) (c : ℚ) (h : ∀ q ∈ l, q = c)
    (hne : l ≠ []) : jsMaxList l = c := by
  cases l with
  | nil => exact absurd rfl hne
  | cons x xs =>
      have hx : x = c := h x (by simp)
      simp only [jsMaxList, hx]
      exact foldl_max_self _ _ fun q hq => h q (by simp [hq])

theorem foldl_add_all_eq (l : List ℚ) (c : ℚ) (h : ∀ q ∈ l, q = c) :
    ∀ a : ℚ, l.foldl (· + ·) a = a + l.length * c := by
  induction l with
  | nil => intro a; simp
  | cons x xs ih =>
      intro a
      have hx : x = c := h x (by simp)
      have hrec := ih (fun q hq => h q (by simp [hq])) (a + x)
      rw [hx] at hrec
      simp only [List.foldl_cons, List.length_cons, hx]
      rw [hrec]
      push_cast
      ring

theorem alignShapes_left_eq (cs : ℚ) (l : List Shape) (h2 : 2 ≤ l.length) :
    alignShapes cs l .left = l.map fun shape =>
      { shape with x := jsMinList (l.map fun s => s.x) } := by
  have h0 : ¬ l.length = 0 := by omega
  have h1 : ¬ l.length = 1 := by omega
  simp only [alignShapes, if_neg h0, if_neg h1]

theorem alignShapes_right_eq (cs : ℚ) (l : List Shape) (h2 : 2 ≤ l.length) :
    alignShapes cs l .right = l.map fun shape =>
      { shape with x := jsMaxList (l.map fun s => s.x + s.width) - shape.width } := by
  have h0 : ¬ l.length = 0 := by omega
  have h1 : ¬ l.length = 1 := by omega
  simp only [alignShapes, if_neg h0, if_neg h1]

theorem alignShapes_centerH_eq (cs : ℚ) (l : List Shape) (h2 : 2 ≤ l.length) :
    alignShapes cs l .centerH = l.map fun shape =>
      { shape with x := (l.map fun s => s.x + s.width / 2).foldl (· + ·) 0 /
          (((l.map fun s => s.x + s.width / 2).length : ℕ) : ℚ) - shape.width / 2 } := by
  have h0 : ¬ l.length = 0 := by omega
  have h1 : ¬ l.length = 1 := by omega
  simp only [alignShapes, if_neg h0, if_neg h1]

theorem alignShapes_top_eq (cs : ℚ) (l : List Shape) (h2 : 2 ≤ l.length) :
    alignShapes cs l .top = l.map fun shape =>
      { shape with y := jsMinList (l.map fun s => s.y) } := by
  have h0 : ¬ l.length = 0 := by omega
  have h1 : ¬ l.length = 1 := by omega
  simp only [alignShapes, if_neg h0, if_neg h1]

theorem alignShapes_bottom_eq (cs : ℚ) (l : List Shape) (h2 : 2 ≤ l.length) :
    alignShapes cs l .bottom = l.map fun shape =>
      { shape with y := jsMaxList (l.map fun s => s.y + s.height) - shape.height } := by
  have h0 : ¬ l.length = 0 := by omega
  have h1 : ¬ l.length = 1 := by omega
  simp only [alignShapes, if_neg h0, if_neg h1]

theorem alignShapes_centerV_eq (cs : ℚ) (l : List Shape) (h2 : 2 ≤ l.length) :
    alignShapes cs l .centerV = l.map fun shape =>
      { shape with y := (l.map fun s => s.y + s.height / 2).foldl (· + ·) 0 /
          (((l.map fun s => s.y + s.height / 2).length : ℕ) : ℚ) - shape.height / 2 } := by
  have h0 : ¬ l.length = 0 := by omega
  have h1 : ¬ l.length = 1 := by omega
  simp only [alignShapes, if_neg h0, if_neg h1]

/-- C6 (status: confirmed). For any selection of at least two shapes and
every alignment, `alignShapes` applied twice in a row yields exactly the
same shape list as applying it once. -/
theorem alignShapes_idempotent (cs : ℚ) (a : AlignmentType) (shapes : List Shape)
    (h2 : 2 ≤ shapes.length) :
    alignShapes cs (alignShapes cs shapes a) a = alignShapes cs shapes a := by
  have hne : shapes ≠ [] := List.ne_nil_of_length_pos (by omega)
  cases a
  case left =>
    rw [alignShapes_left_eq cs shapes h2]
    rw [alignShapes_left_eq cs _ (by simpa using h2)]
    have hT : jsMinList ((shapes.map fun shape =>
        ({ shape with x := jsMinList (shapes.map fun s => s.x) } : Shape)).map
          fun s => s.x) = jsMinList (shapes.map fun s => s.x) := by
      apply jsMinList_all_eq
      · intro q hq
        simp only [List.map_map, List.mem_map, Function.comp] at hq
        obtain ⟨s, hs, rfl⟩ := hq
        rfl
      · simpa using hne
    rw [hT, List.map_map]
    rfl
  case right =>
    rw [alignShapes_right_eq cs shapes h2]
    rw [alignShapes_right_eq cs _ (by simpa using h2)]
    have hT : jsMaxList ((shapes.map fun shape =>
        ({ shape with
            x := jsMaxList (shapes.map fun s => s.x + s.width) - shape.width } : Shape)).map
          fun s => s.x + s.width) = jsMaxList (shapes.map fun s => s.x + s.width) := by
      apply jsMaxList_all_eq
      · intro q hq
        simp only [List.map_map, List.mem_map, Function.comp] at hq
        obtain ⟨s, hs, rfl⟩ := hq
        simp
      · simpa using hne
    rw [hT, List.map_map]
    rfl
  case centerH =>
    rw [alignShapes_centerH_eq cs shapes h2]
    rw [alignShapes_centerH_eq cs _ (by simpa using h2)]
    have hn : (((shapes.map fun s => s.x + s.width / 2).length : ℕ) : ℚ) ≠ 0 := by
      simp only [List.length_map]
      exact Nat.cast_ne_zero.mpr (by omega)
    have hT : ((shapes.map fun shape =>
        ({ shape with x := (shapes.map fun s => s.x + s.width / 2).foldl (· + ·) 0 /
            (((shapes.map fun s => s.x + s.width / 2).length : ℕ) : ℚ) -
              shape.width / 2 } : Shape)).map fun s => s.x + s.width / 2).foldl (· + ·) 0 /
        ((((shapes.map fun shape =>
        ({ shape with x := (shapes.map fun s => s.x + s.width / 2).foldl (· + ·) 0 /
            (((shapes.map fun s => s.x + s.width / 2).length : ℕ) : ℚ) -
              shape.width / 2 } : Shape)).map fun s => s.x + s.width / 2).length : ℕ) : ℚ) =
        (shapes.map fun s => s.x + s.width / 2).foldl (· + ·) 0 /
          (((shapes.map fun s => s.x + s.width / 2).length : ℕ) : ℚ) := by
      rw [foldl_add_all_eq _ ((shapes.map fun s => s.x + s.width / 2).foldl (· + ·) 0 /
          (((shapes.map fun s => s.x + s.width / 2).length : ℕ) : ℚ)) ?_ 0]
      · simp only [List.length_map, zero_add]
        rw [mul_comm, mul_div_assoc]
        rw [div_self (by simpa using hn), mul_one]
      · intro q hq
        simp only [List.map_map, List.mem_map, Function.comp] at hq
        obtain ⟨s, hs, rfl⟩ := hq
        simp
    rw [hT, List.map_map]
    rfl
  case top =>
    rw [alignShapes_top_eq cs shapes h2]
    rw [alignShapes_top_eq cs _ (by simpa using h2)]
    have hT : jsMinList ((shapes.map fun shape =>
        ({ shape with y := jsMinList (shapes.map fun s => s.y) } : Shape)).map
          fun s => s.y) = jsMinList (shapes.map fun s => s.y) := by
      apply jsMinList_all_eq
      · intro q hq
        simp only [List.map_map, List.mem_map, Function.comp] at hq
        obtain ⟨s, hs, rfl⟩ := hq
        rfl
      · simpa using hne
    rw [hT, List.map_map]
    rfl
  case bottom =>
    rw [alignShapes_bottom_eq cs shapes h2]
    rw [alignShapes_bottom_eq cs _ (by simpa using h2)]
    have hT : jsMaxList ((shapes.map fun shape =>
        ({ shape with
            y := jsMaxList (shapes.map fun s => s.y + s.height) - shape.height } : Shape)).map
          fun s => s.y + s.height) = jsMaxList (shapes.map fun s => s.y + s.height) := by
      apply jsMaxList_all_eq
      · intro q hq
        simp only [List.map_map, List.mem_map, Function.comp] at hq
        obtain ⟨s, hs, rfl⟩ := hq
        simp
      · simpa using hne
    rw [hT, List.map_map]
    rfl
  case centerV =>
    rw [alignShapes_centerV_eq cs shapes h2]
    rw [alignShapes_centerV_eq cs _ (by simpa using h2)]
    have hn : (((shapes.map fun s => s.y + s.height / 2).length : ℕ) : ℚ) ≠ 0 := by
      simp only [List.length_map]
      exact Nat.cast_ne_zero.mpr (by omega)
    have hT : ((shapes.map fun shape =>
        ({ shape with y := (shapes.map fun s => s.y + s.height / 2).foldl (· + ·) 0 /
            (((shapes.map fun s => s.y + s.height / 2).length : ℕ) : ℚ) -
              shape.height / 2 } : Shape)).map fun s => s.y + s.height / 2).foldl (· + ·) 0 /
        ((((shapes.map fun shape =>
        ({ shape with y := (shapes.map fun s => s.y + s.height / 2).foldl (· + ·) 0 /
            (((shapes.map fun s => s.y + s.height / 2).length : ℕ) : ℚ) -
              shape.height / 2 } : Shape)).map fun s => s.y + s.height / 2).length : ℕ) : ℚ) =
        (shapes.map fun s => s.y + s.height / 2).foldl (· + ·) 0 /
          (((shapes.map fun s => s.y + s.height / 2).length : ℕ) : ℚ) := by
      rw [foldl_add_all_eq _ ((shapes.map fun s => s.y + s.height / 2).foldl (· + ·) 0 /
          (((shapes.map fun s => s.y + s.height / 2).length : ℕ) : ℚ)) ?_ 0]
      · simp only [List.length_map, zero_add]
        rw [mul_comm, mul_div_assoc]
        rw [div_self (by simpa using hn), mul_one]
      · intro q hq
        simp only [List.map_map, List.mem_map, Function.comp] at hq
        obtain ⟨s, hs, rfl⟩ := hq
        simp
    rw [hT, List.map_map]
    rfl

/-- Witness for `alignShapes_idempotent` on a concrete two-square
selection with horizontal centering. -/
theorem alignShapes_idempotent_witness :
    2 ≤ ([squareAt0, squareAt96] : List Shape).length ∧
      alignShapes 512 (alignShapes 512 [squareAt0, squareAt96] .centerH) .centerH =
        alignShapes 512 [squareAt0, squareAt96] .centerH := by
  exact ⟨by simp, alignShapes_idempotent 512 .centerH [squareAt0, squareAt96] (by simp)⟩

theorem onGrid_zero : onGrid 0 := ⟨0, by norm_num⟩

theorem onGrid_cell : onGrid CELL_SIZE := ⟨1, by norm_num⟩

theorem onGrid_add {a b : ℚ} (ha : onGrid a) (hb : onGrid b) : onGrid (a + b) := by
  obtain ⟨k1, hk1⟩ := ha
  obtain ⟨k2, hk2⟩ := hb
  exact ⟨k1 + k2, by rw [hk1, hk2]; push_cast; ring⟩

theorem onGrid_sub {a b : ℚ} (ha : onGrid a) (hb : onGrid b) : onGrid (a - b) := by
  obtain ⟨k1, hk1⟩ := ha
  obtain ⟨k2, hk2⟩ := hb
  exact ⟨k1 - k2, by rw [hk1, hk2]; push_cast; ring⟩

theorem onGrid_min {a b : ℚ} (ha : onGrid a) (hb : onGrid b) : onGrid (min a b) := by
  rcases min_choice a b with h | h <;> rw [h] <;> assumption

theorem onGrid_max {a b : ℚ} (ha : onGrid a) (hb : onGrid b) : onGrid (max a b) := by
  rcases max_choice a b with h | h <;> rw [h] <;> assumption

theorem onGrid_clamp {v lo hi : ℚ} (hv : onGrid v) (hlo : onGrid lo)
    (hhi : onGrid hi) : onGrid (clamp v lo hi) :=
  onGrid_max hlo (onGrid_min hhi hv)

theorem onGrid_snap (v : ℚ) : onGrid (snapToGrid v) :=
  ⟨jsRound (v / CELL_SIZE), by rw [snapToGrid]; ring⟩

theorem foldl_min_onGrid (l : List ℚ) :
    ∀ c : ℚ, onGrid c → (∀ q ∈ l, onGrid q) → onGrid (l.foldl min c) := by
  induction l with
  | nil => intro c hc _; exact hc
  | cons x xs ih =>
      intro c hc h
      simp only [List.foldl_cons]
      exact ih _ (onGrid_min hc (h x (by simp))) fun q hq => h q (by simp [hq])

theorem foldl_max_onGrid (l : List ℚ) :
    ∀ c : ℚ, onGrid c → (∀ q ∈ l, onGrid q) → onGrid (l.foldl max c) := by
  induction l with
  | nil => intro c hc _; exact hc
  | cons x xs ih =>
      intro c hc h
      simp only [List.foldl_cons]
      exact ih _ (onGrid_max hc (h x (by simp))) fun q hq => h q (by simp [hq])

theorem jsMinList_onGrid (l : List ℚ) (h : ∀ q ∈ l, onGrid q) :
    onGrid (jsMinList l) := by
  cases l with
  | nil => exact onGrid_zero
  | cons x xs =>
      exact foldl_min_onGrid xs x (h x (by simp)) fun q hq => h q (by simp [hq])

theorem jsMaxList_onGrid (l : List ℚ) (h : ∀ q ∈ l, onGrid q) :
    onGrid (jsMaxList l) := by
  cases l with
  | nil => exact onGrid_zero
  | cons x xs =>
      exact foldl_max_onGrid xs x (h x (by simp)) fun q hq => h q (by simp [hq])

/-- C8 counterexample. CENTER_H alignment of the two squares at x = 0 and
x = 96 (width 32 each) moves both to x = 48, which is not a multiple of
the 32-unit cell size, so the all-coordinates-on-grid invariant fails
after this committed alignment. -/
theorem centerH_breaks_grid :
    ((alignShapes 512 [squareAt0, squareAt96] .centerH).headD squareAt0).x = 48 ∧
      ¬ onGrid 48 := by
  constructor
  · simp [alignShapes, squareAt0, squareAt96]
    norm_num
  · rintro ⟨k, hk⟩
    rw [CELL_SIZE] at hk
    have h2 : (3 : ℚ) = 2 * (k : ℚ) := by linarith
    have h3 : (3 : ℤ) = 2 * k := by exact_mod_cast h2
    omega

/-- C8 (status: corrected, amended). `snapToGrid` always produces a cell
multiple, and the grid invariant is preserved by draw-preview commits,
drag flushes, resize flushes, duplication, paste normalization and the
LEFT/RIGHT/TOP/BOTTOM alignments — but not by CENTER_H/CENTER_V, whose
averaged target can land off-grid (see `centerH_breaks_grid`). -/
theorem commit_on_grid :
    (∀ v : ℚ, onGrid (snapToGrid v)) ∧
    (∀ (start point : Point) (s : Shape), shapeOnGrid (previewBoxOf start point s)) ∧
    (∀ (cs : ℚ) (p : Point) (dx dy : ℚ) (s : Shape), onGrid cs → shapeOnGrid s →
      shapeOnGrid (applyPatch s (dragUpdate cs p dx dy s))) ∧
    (∀ (cs : ℚ) (handle : ResizeHandle) (start : Shape) (dx dy : ℚ) (s : Shape),
      onGrid cs → shapeOnGrid start → shapeOnGrid s →
      shapeOnGrid (applyPatch s (resizeUpdates cs handle start dx dy))) ∧
    (∀ (i : ℚ) (s : Shape), shapeOnGrid s → shapeOnGrid (duplicatedShape i s)) ∧
    (∀ (s : Shape) (g : ℤ), shapeOnGrid (normalizeShapeToCanvas s g)) ∧
    (∀ (cs : ℚ) (al : AlignmentType) (shapes : List Shape),
      (al = .left ∨ al = .right ∨ al = .top ∨ al = .bottom) → onGrid cs →
      (∀ s ∈ shapes, shapeOnGrid s) →
      ∀ s' ∈ alignShapes cs shapes al, shapeOnGrid s') := by
  refine ⟨onGrid_snap, ?_, ?_, ?_, ?_, ?_, ?_⟩
  · intro start point s
    exact ⟨onGrid_snap _, onGrid_snap _, onGrid_snap _, onGrid_snap _⟩
  · intro cs p dx dy s hcs hs
    obtain ⟨hx, hy, hw, hh⟩ := hs
    exact ⟨onGrid_clamp (onGrid_snap _) onGrid_zero (onGrid_sub hcs hw),
      onGrid_clamp (onGrid_snap _) onGrid_zero (onGrid_sub hcs hh), hw, hh⟩
  · intro cs handle start dx dy s hcs hst hs
    obtain ⟨hsx, hsy, hsw, hsh⟩ := hst
    obtain ⟨hx, hy, hw, hh⟩ := hs
    cases handle
    case nw =>
      have hnx : onGrid (clamp (snapToGrid (start.x + dx)) 0
          (start.x + start.width - CELL_SIZE)) :=
        onGrid_clamp (onGrid_snap _) onGrid_zero
          (onGrid_sub (onGrid_add hsx hsw) onGrid_cell)
      have hny : onGrid (clamp (snapToGrid (start.y + dy)) 0
          (start.y + start.height - CELL_SIZE)) :=
        onGrid_clamp (onGrid_snap _) onGrid_zero
          (onGrid_sub (onGrid_add hsy hsh) onGrid_cell)
      exact ⟨hnx, hny,
        onGrid_max onGrid_cell (onGrid_sub (onGrid_add hsx hsw) hnx),
        onGrid_max onGrid_cell (onGrid_sub (onGrid_add hsy hsh) hny)⟩
    case ne =>
      have hny : onGrid (clamp (snapToGrid (start.y + dy)) 0
          (start.y + start.height - CELL_SIZE)) :=
        onGrid_clamp (onGrid_snap _) onGrid_zero
          (onGrid_sub (onGrid_add hsy hsh) onGrid_cell)
      exact ⟨hx, hny,
        onGrid_clamp (onGrid_max onGrid_cell (onGrid_snap _)) onGrid_cell
          (onGrid_sub hcs hsx),
        onGrid_max onGrid_cell (onGrid_sub (onGrid_add hsy hsh) hny)⟩
    case sw =>
      have hnx : onGrid (clamp (snapToGrid (start.x + dx)) 0
          (start.x + start.width - CELL_SIZE)) :=
        onGrid_clamp (onGrid_snap _) onGrid_zero
          (onGrid_sub (onGrid_add hsx hsw) onGrid_cell)
      exact ⟨hnx, hy,
        onGrid_max onGrid_cell (onGrid_sub (onGrid_add hsx hsw) hnx),
        onGrid_clamp (onGrid_max onGrid_cell (onGrid_snap _)) onGrid_cell
          (onGrid_sub hcs hsy)⟩
    case se =>
      exact ⟨hx, hy,
        onGrid_clamp (onGrid_max onGrid_cell (onGrid_snap _)) onGrid_cell
          (onGrid_sub hcs hsx),
        onGrid_clamp (onGrid_max onGrid_cell (onGrid_snap _)) onGrid_cell
          (onGrid_sub hcs hsy)⟩
  · intro i s hs
    obtain ⟨hx, hy, hw, hh⟩ := hs
    exact ⟨onGrid_add hx onGrid_cell, onGrid_add hy onGrid_cell, hw, hh⟩
  · intro s g
    have hcs : onGrid ((g : ℚ) * CELL_SIZE) := ⟨g, by ring⟩
    have hw : onGrid (min (clamp (snapToGrid s.width) CELL_SIZE ((g : ℚ) * CELL_SIZE))
        ((g : ℚ) * CELL_SIZE)) :=
      onGrid_min (onGrid_clamp (onGrid_snap _) onGrid_cell hcs) hcs
    have hh : onGrid (min (clamp (snapToGrid s.height) CELL_SIZE ((g : ℚ) * CELL_SIZE))
        ((g : ℚ) * CELL_SIZE)) :=
      onGrid_min (onGrid_clamp (onGrid_snap _) onGrid_cell hcs) hcs
    exact ⟨onGrid_clamp (onGrid_snap _) onGrid_zero
        (onGrid_max onGrid_zero (onGrid_sub hcs hw)),
      onGrid_clamp (onGrid_snap _) onGrid_zero
        (onGrid_max onGrid_zero (onGrid_sub hcs hh)), hw, hh⟩
  · intro cs al shapes hal hcs hall s' hs'
    by_cases h0 : shapes.length = 0
    · rw [List.length_eq_zero] at h0
      subst h0
      simp [alignShapes] at hs'
    · by_cases h1 : shapes.length = 1
      · obtain ⟨u, hu⟩ := List.length_eq_one.mp h1
        subst hu
        have hu_grid := hall u (by simp)
        obtain ⟨hux, huy, huw, huh⟩ := hu_grid
        rcases hal with h | h | h | h <;> subst h <;>
          (simp only [alignShapes] at hs'
           norm_num at hs'
           subst hs')
        · exact ⟨onGrid_zero, huy, huw, huh⟩
        · exact ⟨onGrid_sub hcs huw, huy, huw, huh⟩
        · exact ⟨hux, onGrid_zero, huw, huh⟩
        · exact ⟨hux, onGrid_sub hcs huh, huw, huh⟩
      · have h2 : 2 ≤ shapes.length := by omega
        rcases hal with h | h | h | h <;> subst h
        · rw [alignShapes_left_eq cs shapes h2] at hs'
          obtain ⟨u, hu, rfl⟩ := List.mem_map.mp hs'
          obtain ⟨hux, huy, huw, huh⟩ := hall u hu
          refine ⟨?_, huy, huw, huh⟩
          exact jsMinList_onGrid _ fun q hq => by
            obtain ⟨v, hv, rfl⟩ := List.mem_map.mp hq
            exact (hall v hv).1
        · rw [alignShapes_right_eq cs shapes h2] at hs'
          obtain ⟨u, hu, rfl⟩ := List.mem_map.mp hs'
          obtain ⟨hux, huy, huw, huh⟩ := hall u hu
          refine ⟨onGrid_sub ?_ huw, huy, huw, huh⟩
          exact jsMaxList_onGrid _ fun q hq => by
            obtain ⟨v, hv, rfl⟩ := List.mem_map.mp hq
            exact onGrid_add (hall v hv).1 (hall v hv).2.2.1
        · rw [alignShapes_top_eq cs shapes h2] at hs'
          obtain ⟨u, hu, rfl⟩ := List.mem_map.mp hs'
          obtain ⟨hux, huy, huw, huh⟩ := hall u hu
          refine ⟨hux, ?_, huw, huh⟩
          exact jsMinList_onGrid _ fun q hq => by
            obtain ⟨v, hv, rfl⟩ := List.mem_map.mp hq
            exact (hall v hv).2.1
        · rw [alignShapes_bottom_eq cs shapes h2] at hs'
          obtain ⟨u, hu, rfl⟩ := List.mem_map.mp hs'
          obtain ⟨hux, huy, huw, huh⟩ := hall u hu
          refine ⟨hux, onGrid_sub ?_ huh, huw, huh⟩
          exact jsMaxList_onGrid _ fun q hq => by
            obtain ⟨v, hv, rfl⟩ := List.mem_map.mp hq
            exact onGrid_add (hall v hv).2.1 (hall v hv).2.2.2

/-- Witness for `commit_on_grid`: the snapped drag target of the C10
scenario and a concrete duplicate both stay on the grid. -/
theorem commit_on_grid_witness :
    onGrid (snapToGrid 264) ∧ shapeOnGrid (duplicatedShape 11 squareAt0) := by
  have hA : shapeOnGrid squareAt0 :=
    ⟨⟨0, by norm_num [squareAt0, CELL_SIZE]⟩, ⟨0, by norm_num [squareAt0, CELL_SIZE]⟩,
      ⟨1, by norm_num [squareAt0, CELL_SIZE]⟩, ⟨1, by norm_num [squareAt0, CELL_SIZE]⟩⟩
  exact ⟨commit_on_grid.1 264, commit_on_grid.2.2.2.2.1 11 squareAt0 hA⟩

theorem updateShapeOp_past (i : ℚ) (p : ShapePatch) (e : GlyphEditor) :
    (updateShapeOp i p e).past = e.past := by
  unfold updateShapeOp
  split <;> rfl

theorem saveToHistory_past_length (e : GlyphEditor)
    (h : e.past.length + 1 ≤ 50) :
    (saveToHistory e).past.length = e.past.length + 1 := by
  simp only [saveToHistory]
  rw [if_neg]
  · simp
  · simp
    omega

/-- C5 counterexample. Flipping a two-shape selection pushes one history
snapshot per shape: starting from an empty history, the past stack holds
two snapshots afterwards, not the single snapshot the claim requires. -/
theorem flip_selection_pushes_two_snapshots :
    (handleFlipHorizontal [squareAt0, squareAt96] twoSquareEditor).past.length = 2 := by
  rfl

theorem foldl_transform_past_length (upd : Shape → ShapePatch) (sel : List Shape) :
    ∀ e : GlyphEditor, e.past.length + sel.length ≤ 50 →
    (sel.foldl (fun acc s => updateShapeOp s.id (upd s) (saveToHistory acc)) e).past.length
      = e.past.length + sel.length := by
  induction sel with
  | nil => intro e _; simp
  | cons s rest ih =>
      intro e h
      simp only [List.length_cons] at h
      have h1 : e.past.length + 1 ≤ 50 := by omega
      have hstep : (updateShapeOp s.id (upd s) (saveToHistory e)).past.length =
          e.past.length + 1 := by
        rw [updateShapeOp_past, saveToHistory_past_length e h1]
      simp only [List.foldl_cons]
      rw [ih _ (by rw [hstep]; omega), hstep, List.length_cons]
      omega

theorem foldl_update_past (f : Shape → ShapePatch) (l : List Shape) :
    ∀ e : GlyphEditor, (l.foldl (fun acc s => updateShapeOp s.id (f s) acc) e).past
      = e.past := by
  induction l with
  | nil => intro e; rfl
  | cons s rest ih =>
      intro e
      simp only [List.foldl_cons]
      rw [ih, updateShapeOp_past]

/-- C5 (status: corrected, amended). Each per-shape transform call saves
its own history snapshot, so applying `flipHorizontal`, `flipVertical` or
`rotate90` to a selection of N shapes pushes N snapshots (undoing the
whole action takes N undos); `alignShapes`, by contrast, saves exactly
one snapshot for the whole selection. -/
theorem transform_snapshot_counts :
    (∀ (sel : List Shape) (e : GlyphEditor), e.past.length + sel.length ≤ 50 →
      (handleFlipHorizontal sel e).past.length = e.past.length + sel.length ∧
      (handleFlipVertical sel e).past.length = e.past.length + sel.length ∧
      (handleRotate90 sel e).past.length = e.past.length + sel.length) ∧
    (∀ (cs : ℚ) (shapes : List Shape) (al : AlignmentType) (e : GlyphEditor),
      shapes ≠ [] → e.past.length + 1 ≤ 50 →
      (alignShapesOp cs shapes al e).past.length = e.past.length + 1) := by
  constructor
  · intro sel e h
    exact ⟨foldl_transform_past_length flipHorizontalUpdates sel e h,
      foldl_transform_past_length flipVerticalUpdates sel e h,
      foldl_transform_past_length rotate90Updates sel e h⟩
  · intro cs shapes al e hne h
    have h0 : ¬ shapes.length = 0 := by
      simpa using fun hc => hne (List.length_eq_zero.mp hc)
    simp only [alignShapesOp, if_neg h0]
    rw [foldl_update_past (fun s => match al with
        | .left | .right | .centerH => { x := some s.x }
        | .top | .bottom | .centerV => { y := some s.y })]
    exact saveToHistory_past_length e h

/-- Witness for `transform_snapshot_counts` on the concrete two-square
editor: two snapshots for the flip, one for the alignment. -/
theorem transform_snapshot_counts_witness :
    (twoSquareEditor.past.length + 2 ≤ 50 ∧
      (handleFlipHorizontal [squareAt0, squareAt96] twoSquareEditor).past.length =
        twoSquareEditor.past.length + 2) ∧
    (alignShapesOp 512 [squareAt0, squareAt96] .left twoSquareEditor).past.length =
      twoSquareEditor.past.length + 1 := by
  refine ⟨⟨by norm_num [twoSquareEditor], ?_⟩, ?_⟩
  · exact ((transform_snapshot_counts.1 [squareAt0, squareAt96] twoSquareEditor
      (by norm_num [twoSquareEditor])).1)
  · exact transform_snapshot_counts.2 512 [squareAt0, squareAt96] .left twoSquareEditor
      (by simp) (by norm_num [twoSquareEditor])

theorem resolveShapes_nil (l : List Shape) : resolveShapes [] l = l := by
  simp [resolveShapes, assocFind]

theorem saveToHistory_eq (shs : List Shape) (past fut : List (List Shape))
    (h : past.length + 1 ≤ 50) :
    saveToHistory ⟨shs, past, fut, []⟩ = ⟨shs, past ++ [shs], [], []⟩ := by
  simp only [saveToHistory, glyphSnapshot, resolveShapes_nil]
  rw [if_neg (by simp; omega)]

theorem commitMutation_eq (f : List Shape → List Shape) (shs : List Shape)
    (past fut : List (List Shape)) (h : past.length + 1 ≤ 50) :
    commitMutation f ⟨shs, past, fut, []⟩ = ⟨f shs, past ++ [shs], [], []⟩ := by
  simp only [commitMutation]
  rw [saveToHistory_eq shs past fut h]

theorem commitMutations_eq (fs : List (List Shape → List Shape)) :
    ∀ (shs : List Shape) (past : List (List Shape)),
    past.length + fs.length ≤ 50 →
    commitMutations fs ⟨shs, past, [], []⟩ =
      ⟨chainMutations fs shs, past ++ mutationStates fs shs, [], []⟩ := by
  induction fs with
  | nil =>
      intro shs past h
      simp [commitMutations, chainMutations, mutationStates]
  | cons f rest ih =>
      intro shs past h
      simp only [List.length_cons] at h
      simp only [commitMutations, List.foldl_cons]
      rw [commitMutation_eq f shs past [] (by omega)]
      have hrec := ih (f shs) (past ++ [shs]) (by simp; omega)
      simp only [commitMutations] at hrec
      rw [hrec]
      simp [chainMutations, mutationStates, List.append_assoc]

theorem undo_eq (shs : List Shape) (Q : List (List Shape)) (t : List Shape)
    (fut : List (List Shape)) (pend : PendingMap) :
    undo ⟨shs, Q ++ [t], fut, pend⟩ = ⟨t, Q, shs :: fut, []⟩ := by
  simp only [undo]
  rw [if_neg (by simp)]
  simp [glyphSnapshot, resolveShapes_nil, List.getLastD_concat, List.dropLast_concat]

theorem redo_eq (shs : List Shape) (P : List (List Shape)) (t : List Shape)
    (fut : List (List Shape)) (pend : PendingMap) :
    redo ⟨shs, P, t :: fut, pend⟩ = ⟨t, P ++ [shs], fut, []⟩ := by
  simp only [redo]
  rw [if_neg (by simp)]
  simp [glyphSnapshot, resolveShapes_nil]

theorem undo_iter (sts : List (List Shape)) :
    ∀ (P : List (List Shape)) (cur : List Shape) (fut : List (List Shape)),
    undo^[sts.length] ⟨cur, P ++ sts.reverse, fut, []⟩ =
      ⟨sts.getLastD cur, P, ((cur :: sts).dropLast).reverse ++ fut, []⟩ := by
  induction sts with
  | nil =>
      intro P cur fut
      simp
  | cons t ts ih =>
      intro P cur fut
      simp only [List.length_cons, List.reverse_cons]
      rw [Function.iterate_succ_apply]
      rw [show P ++ (ts.reverse ++ [t]) = (P ++ ts.reverse) ++ [t] from
        (List.append_assoc _ _ _).symm]
      rw [undo_eq cur (P ++ ts.reverse) t fut []]
      rw [ih P t (cur :: fut)]
      simp only [List.getLastD_cons]
      cases ts <;> simp [List.getLastD]

theorem redo_iter (fut : List (List Shape)) :
    ∀ (P : List (List Shape)) (cur : List Shape),
    redo^[fut.length] ⟨cur, P, fut, []⟩ =
      ⟨fut.getLastD cur, P ++ ((cur :: fut).dropLast), [], []⟩ := by
  induction fut with
  | nil =>
      intro P cur
      simp
  | cons t ts ih =>
      intro P cur
      simp only [List.length_cons]
      rw [Function.iterate_succ_apply, redo_eq cur P t ts []]
      rw [ih (P ++ [cur]) t]
      simp only [List.getLastD_cons]
      cases ts <;> simp [List.getLastD, List.append_assoc]

theorem mutationStates_length (fs : List (List Shape → List Shape)) :
    ∀ a : List Shape, (mutationStates fs a).length = fs.length := by
  induction fs with
  | nil => intro a; rfl
  | cons f rest ih => intro a; simp [mutationStates, ih]

theorem mutationStates_headD_chain (fs : List (List Shape → List Shape))
    (a : List Shape) :
    (mutationStates fs a).headD (chainMutations fs a) = a := by
  cases fs <;> rfl

theorem mutationStates_ne_nil (fs : List (List Shape → List Shape)) (a : List Shape)
    (h : fs ≠ []) : mutationStates fs a ≠ [] := by
  cases fs with
  | nil => exact absurd rfl h
  | cons f rest => simp [mutationStates]

theorem getLastD_reverse {α : Type} (l : List α) (d : α) :
    l.reverse.getLastD d = l.headD d := by
  cases l with
  | nil => rfl
  | cons x xs => simp [List.reverse_cons, List.getLastD_concat]

theorem dropLast_cons_reverse_getLastD_ne {α : Type} (c : α) (l : List α) (d : α)
    (h : l ≠ []) : (((c :: l).dropLast).reverse).getLastD d = c := by
  cases l with
  | nil => exact absurd rfl h
  | cons x xs =>
      have h1 : (c :: x :: xs).dropLast = c :: (x :: xs).dropLast := rfl
      rw [h1]
      simp [List.reverse_cons, List.getLastD_concat]

/-- C2 (status: confirmed). Starting from a state with no in-flight
pending updates (and history shallow enough that the 50-entry cap never
trims), `saveToHistory()` followed by N committed mutations then
`undo()` ×N restores the shape array to the pre-mutation snapshot, and
`redo()` ×N after that restores the post-mutation state.  Moreover
`undo` pops the top of `past`, pushes the current state (pending
discarded first, per the source) onto `future`, and installs the popped
snapshot as the live shape array. -/
theorem history_undo_redo_roundtrip (e : GlyphEditor)
    (fs : List (List Shape → List Shape))
    (hp : e.pending = []) (hlen : e.past.length + fs.length + 1 ≤ 50) :
    (undo^[fs.length] (commitMutations fs (saveToHistory e))).shapes = e.shapes ∧
    (redo^[fs.length] (undo^[fs.length] (commitMutations fs (saveToHistory e)))).shapes =
      (commitMutations fs (saveToHistory e)).shapes ∧
    (∀ e' : GlyphEditor, e'.past ≠ [] →
      undo e' = { shapes := e'.past.getLastD [], past := e'.past.dropLast,
                  future := e'.shapes :: e'.future, pending := [] }) := by
  obtain ⟨shs, past, fut, pend⟩ := e
  simp only at hp hlen ⊢
  subst hp
  have h1 : past.length + 1 ≤ 50 := by omega
  rw [saveToHistory_eq shs past fut h1]
  rw [commitMutations_eq fs shs (past ++ [shs]) (by simp; omega)]
  have hM := mutationStates_length fs shs
  have hiter1 := undo_iter (mutationStates fs shs).reverse (past ++ [shs])
      (chainMutations fs shs) []
  rw [List.reverse_reverse, List.length_reverse, hM] at hiter1
  have hshapes1 : ((mutationStates fs shs).reverse).getLastD (chainMutations fs shs)
      = shs := by
    rw [getLastD_reverse]
    exact mutationStates_headD_chain fs shs
  refine ⟨?_, ?_, ?_⟩
  · rw [hiter1]
    exact hshapes1
  · rw [hiter1, hshapes1, List.append_nil]
    have hFNlen : (((chainMutations fs shs ::
        (mutationStates fs shs).reverse).dropLast).reverse).length = fs.length := by
      simp [hM]
    have hiter2 := redo_iter (((chainMutations fs shs ::
        (mutationStates fs shs).reverse).dropLast).reverse) (past ++ [shs]) shs
    rw [hFNlen] at hiter2
    rw [hiter2]
    by_cases hfs : fs = []
    · subst hfs
      simp [mutationStates, chainMutations]
    · have hne : (mutationStates fs shs).reverse ≠ [] := by
        intro hc
        exact mutationStates_ne_nil fs shs hfs (List.reverse_eq_nil_iff.mp hc)
      exact dropLast_cons_reverse_getLastD_ne _ _ _ hne
  · intro e' hne
    obtain ⟨shs', past', fut', pend'⟩ := e'
    simp only at hne ⊢
    have hdecomp : past'.dropLast ++ [past'.getLast hne] = past' :=
      List.dropLast_append_getLast hne
    rw [← hdecomp, undo_eq shs' _ _ fut' pend']
    simp [List.getLastD_concat, List.dropLast_concat]

/-- Witness for `history_undo_redo_roundtrip`: two concrete mutations
(adding a shape, clearing the glyph) on the two-square editor. -/
theorem history_undo_redo_roundtrip_witness :
    twoSquareEditor.pending = [] ∧
      twoSquareEditor.past.length +
        ([fun l => l ++ [edgeSquare], fun _ => []] :
          List (List Shape → List Shape)).length + 1 ≤ 50 ∧
      (undo^[2] (commitMutations [fun l => l ++ [edgeSquare], fun _ => []]
        (saveToHistory twoSquareEditor))).shapes = twoSquareEditor.shapes := by
  refine ⟨rfl, by norm_num [twoSquareEditor], ?_⟩
  exact (history_undo_redo_roundtrip twoSquareEditor
    [fun l => l ++ [edgeSquare], fun _ => []] rfl
    (by norm_num [twoSquareEditor])).1

/-- C9 counterexample. Switching the active glyph while a drag is in
flight does not discard the pending update: `setCurrentGlyph` first calls
`applyPendingShapeUpdates`, which commits the in-flight x = 32 move into
glyph "A"'s authoritative shape array. -/
theorem glyph_switch_commits_pending :
    assocFind (setCurrentGlyph docMidDrag "B").glyphs "A" =
      some [{ squareAt0 with x := 32 }] ∧
      ({ squareAt0 with x := 32 } : Shape) ≠ squareAt0 := by
  constructor
  · rfl
  · simp [squareAt0, Shape.mk.injEq]

theorem assocFind_map_val {α β γ : Type} [DecidableEq α]
    (l : List (α × β)) (f : α → β → γ) (k : α) :
    ∀ v, assocFind l k = some v →
      assocFind (l.map fun g => (g.1, f g.1 g.2)) k = some (f k v) := by
  induction l with
  | nil => intro v hv; simp [assocFind] at hv
  | cons g rest ih =>
      intro v hv
      obtain ⟨k', v'⟩ := g
      by_cases hk : k' = k
      · subst hk
        simp [assocFind] at hv ⊢
        exact congrArg (f k') hv
      · simp [assocFind, hk] at hv ⊢
        exact ih v hv

/-- C9 (status: corrected, amended). `setCurrentGlyph` plus the
glyph-switch effect installs the new glyph key, resets every interaction
flag and gesture record to idle, clears the selection, and empties the
pending map — but the in-flight pending updates are flushed (committed)
into their own glyph rather than discarded: a glyph with no pending
entries keeps its shape array unchanged, and a glyph with pending
entries receives exactly those updates; nothing leaks into any other
glyph. -/
theorem glyph_switch_resets_and_flushes (d : EditorDoc) (k : String) :
    (setCurrentGlyph d k).currentGlyph = k ∧
    (setCurrentGlyph d k).pending = [] ∧
    (setCurrentGlyph d k).selection = [] ∧
    (setCurrentGlyph d k).isDragging = false ∧
    (setCurrentGlyph d k).isResizing = false ∧
    (setCurrentGlyph d k).isSelecting = false ∧
    (setCurrentGlyph d k).drawStart = none ∧
    (setCurrentGlyph d k).dragStart = none ∧
    (setCurrentGlyph d k).shapeStartPositions = [] ∧
    (setCurrentGlyph d k).resizeStartShape = none ∧
    (setCurrentGlyph d k).resizeHandle = none ∧
    (∀ (g : String) (shs : List Shape), assocFind d.glyphs g = some shs →
      assocFind (setCurrentGlyph d k).glyphs g =
        some (resolveShapes (glyphPending d g) shs)) ∧
    (∀ (g : String) (shs : List Shape), assocFind d.glyphs g = some shs →
      glyphPending d g = [] →
      assocFind (setCurrentGlyph d k).glyphs g = some shs) := by
  refine ⟨rfl, rfl, rfl, rfl, rfl, rfl, rfl, rfl, rfl, rfl, rfl, ?_, ?_⟩
  · intro g shs hg
    exact assocFind_map_val d.glyphs (fun key l => resolveShapes (glyphPending d key) l)
      g shs hg
  · intro g shs hg hpend
    have h2 := assocFind_map_val d.glyphs
      (fun key l => resolveShapes (glyphPending d key) l) g shs hg
    simp only at h2
    rw [hpend, resolveShapes_nil] at h2
    exact h2

/-- Witness for `glyph_switch_resets_and_flushes`: in a document whose
glyph "C" has no pending updates, switching to "B" leaves "C"'s shapes
untouched. -/
theorem glyph_switch_resets_and_flushes_witness :
    assocFind ({ docMidDrag with glyphs := docMidDrag.glyphs ++ [("C", [squareAt96])] } :
        EditorDoc).glyphs "C" = some [squareAt96] ∧
      glyphPending { docMidDrag with glyphs := docMidDrag.glyphs ++ [("C", [squareAt96])] }
        "C" = [] ∧
      assocFind (setCurrentGlyph
        { docMidDrag with glyphs := docMidDrag.glyphs ++ [("C", [squareAt96])] } "B").glyphs
        "C" = some [squareAt96] := by
  refine ⟨rfl, rfl, ?_⟩
  exact (glyph_switch_resets_and_flushes
    { docMidDrag with glyphs := docMidDrag.glyphs ++ [("C", [squareAt96])] } "B").2.2.2.2.2.2.2.2.2.2.2.2
    "C" [squareAt96] rfl rfl
